import Mathlib

/-!
Verification of the audio playback arbiter (`AudioQueueManager`) and the
speech-synthesis client (`TTSService`) of this repository, via a shallow
embedding of their logic.

The host runtime is single-threaded with suspension points only at explicit
asynchronous waits, so the arbiter is modelled as a deterministic labelled
transition system: each label runs one synchronous slice of JS code to its
next suspension point.  An action's `await` is modelled by recording the
action as running and later applying a `finish` label that resumes the
awaiting continuation.
-/

namespace Arbiter

/-- Which code path started an action: the immediate path of `requestPlay`
(including the same-identity retrigger branch) or the queue-draining loop of
`processQueue`. -/
inductive Source where
  | imm
  | queued
deriving DecidableEq

/-- Observable events: the `audioQueueStop` CustomEvent dispatched by
`stopCurrent`, and the start / settlement of a registered play action. -/
inductive Ev where
  | stop (id : String)
  | started (tok : Nat) (id : String)
  | finished (tok : Nat)
deriving DecidableEq

/-- How a caller's `requestPlay` promise settles once its action finishes. -/
inductive Settle where
  | resolved
  | rejected (err : String)
deriving DecidableEq

/-- State of the `AudioQueueManager` singleton, extended with bookkeeping
for started-but-unfinished actions (`running`), fresh action tokens,
the event log and promise settlements. -/
structure AState where
  current : Option String
  queue : List (Nat × String)
  isProcessing : Bool
  running : List (Nat × Source)
  nextTok : Nat
  events : List Ev
  settled : List (Nat × Settle)
deriving DecidableEq

def initState : AState := ⟨none, [], false, [], 0, [], []⟩

/-- `stopCurrent()`: if something is playing, dispatch the stop event for it
and clear `currentPlayingId`.  The queue is untouched. -/
def stopCurrent (s : AState) : AState :=
  match s.current with
  | none => s
  | some cur => { s with current := none, events := s.events ++ [Ev.stop cur] }

/-- `processQueue()` up to its first suspension point: guarded by
`isProcessing`, an empty queue, or a current player; otherwise it marks the
drain active, shifts the queue head, records it as current and starts its
action (the drain then suspends awaiting that action). -/
def processQueue (s : AState) : AState :=
  if s.isProcessing || s.queue.isEmpty || s.current.isSome then s
  else
    match s.queue with
    | [] => s
    | (tok, id) :: rest =>
      { s with isProcessing := true, queue := rest, current := some id,
               running := s.running ++ [(tok, Source.queued)],
               events := s.events ++ [Ev.started tok id] }

/-- `requestPlay(id, playFn)` up to its first suspension point.
If nothing is playing the action starts immediately; if the same identity is
playing, `stopCurrent()` runs first and the call proceeds as a fresh
immediate play; otherwise the request is appended to the queue (its wrapper
resolving the caller even on failure). -/
def requestPlay (id : String) (s : AState) : AState :=
  match s.current with
  | none =>
    { s with current := some id,
             running := s.running ++ [(s.nextTok, Source.imm)],
             nextTok := s.nextTok + 1,
             events := s.events ++ [Ev.started s.nextTok id] }
  | some cur =>
    if cur = id then
      let s' := stopCurrent s
      { s' with current := some id,
                running := s'.running ++ [(s'.nextTok, Source.imm)],
                nextTok := s'.nextTok + 1,
                events := s'.events ++ [Ev.started s'.nextTok id] }
    else
      { s with queue := s.queue ++ [(s.nextTok, id)], nextTok := s.nextTok + 1 }

/-- `onPlayEnded(id)`: clears the current player and drains the queue only
when `id` matches; otherwise a no-op. -/
def onPlayEnded (id : String) (s : AState) : AState :=
  if s.current = some id then processQueue { s with current := none } else s

/-- `clearQueue()`: empties the pending queue only. -/
def clearQueue (s : AState) : AState := { s with queue := [] }

/-- `getQueueLength()`. -/
def getQueueLength (s : AState) : Nat := s.queue.length

/-- The continuation of the drain loop after its awaited action settled and
the `finally` cleared `currentPlayingId`: either start the next queued
action (drain stays active) or exit the loop resetting `isProcessing`. -/
def loopContinue (s : AState) : AState :=
  if s.queue.isEmpty || s.current.isSome then { s with isProcessing := false }
  else
    match s.queue with
    | [] => { s with isProcessing := false }
    | (tok, id) :: rest =>
      { s with queue := rest, current := some id,
               running := s.running ++ [(tok, Source.queued)],
               events := s.events ++ [Ev.started tok id] }

def lookupSrc (tok : Nat) : List (Nat × Source) → Option Source
  | [] => none
  | (t, src) :: rest => if t = tok then some src else lookupSrc tok rest

def removeTok (tok : Nat) : List (Nat × Source) → List (Nat × Source)
  | [] => []
  | (t, src) :: rest => if t = tok then rest else (t, src) :: removeTok tok rest

/-- Settlement of a running action (`outcome = none` for success,
`some e` for a rejection with error `e`), resuming the awaiting code:
the immediate path's `finally` clears the current player, calls
`processQueue()` and then propagates the outcome to the caller's promise;
the queued wrapper resolves the caller unconditionally (errors are only
logged) and the drain loop's `finally` clears the current player before the
loop re-checks its guard. -/
def finishAction (tok : Nat) (outcome : Option String) (s : AState) : AState :=
  match lookupSrc tok s.running with
  | none => s
  | some Source.imm =>
    let s1 : AState :=
      { s with running := removeTok tok s.running, current := none,
               events := s.events ++ [Ev.finished tok],
               settled := s.settled ++
                 [(tok, match outcome with
                        | none => Settle.resolved
                        | some e => Settle.rejected e)] }
    processQueue s1
  | some Source.queued =>
    let s1 : AState :=
      { s with running := removeTok tok s.running, current := none,
               events := s.events ++ [Ev.finished tok],
               settled := s.settled ++ [(tok, Settle.resolved)] }
    loopContinue s1

/-- One interleaving step: an external call or the completion of a running
action. -/
inductive Label where
  | req (id : String)
  | stop
  | ended (id : String)
  | finish (tok : Nat) (outcome : Option String)
  | clear

def stepFn : Label → AState → AState
  | Label.req id, s => requestPlay id s
  | Label.stop, s => stopCurrent s
  | Label.ended id, s => onPlayEnded id s
  | Label.finish tok outcome, s => finishAction tok outcome s
  | Label.clear, s => clearQueue s

def run (s : AState) (tr : List Label) : AState :=
  tr.foldl (fun st l => stepFn l st) s

/-- States reachable by interleavings that never call `stopCurrent`, never
request the identity that is currently playing, and only call `onPlayEnded`
with a non-matching identity (where the code makes it a no-op). -/
inductive SafeReach : AState → Prop where
  | init : SafeReach initState
  | req (s : AState) (id : String) : SafeReach s → s.current ≠ some id →
      SafeReach (stepFn (Label.req id) s)
  | ended (s : AState) (id : String) : SafeReach s → s.current ≠ some id →
      SafeReach (stepFn (Label.ended id) s)
  | finish (s : AState) (tok : Nat) (outcome : Option String) : SafeReach s →
      SafeReach (stepFn (Label.finish tok outcome) s)
  | clear (s : AState) : SafeReach s → SafeReach (stepFn Label.clear s)

/-- Single-flight invariant: at most one action is running, an action is
running exactly when an identity is recorded as current, and the drain is
active exactly when the running action was started by the drain. -/
def Inv (s : AState) : Prop :=
  s.running.length ≤ 1 ∧
  (s.current = none ↔ s.running = []) ∧
  (s.isProcessing = true ↔ ∃ t, (t, Source.queued) ∈ s.running)

end Arbiter

/-!
Shallow embedding of `TTSService`.  `fetch` and `JSON.parse` are host
builtins, so they enter as oracles: `attempts n` is the outcome of the n-th
network attempt and `parse line` the outcome of `JSON.parse(line)`.  A JS
exception is a pair of `name` and `message`; a parsed response line is the
projection JS takes of the parsed object: its `code`, `message` and `data`
fields (`none` for an absent or non-string field).
-/

namespace TTS

deriving instance DecidableEq for Except

structure JSError where
  name : String
  message : String
deriving DecidableEq

structure HttpResponse where
  ok : Bool
  status : Nat
  statusText : String
  bodyText : String
deriving DecidableEq

structure LineJson where
  code : Option Int
  message : String
  data : Option String
deriving DecidableEq

structure TTSConfig where
  appId : String
  accessKey : String
  apiUrl : String
  resourceId : String
deriving DecidableEq

structure TTSRequest where
  text : String
  speaker : String
deriving DecidableEq

structure TTSData where
  audio : String
  timestamp : Nat
deriving DecidableEq

structure TTSResponse where
  success : Bool
  data : Option TTSData
  error : Option String
deriving DecidableEq

def retryCount : Nat := 3
def retryDelay : Nat := 1000

/-- JS `String.prototype.trim`, on the character list. -/
def trimChars (l : List Char) : List Char :=
  ((l.dropWhile Char.isWhitespace).reverse.dropWhile Char.isWhitespace).reverse

/-- JS `s.trim()`. -/
def jsTrim (s : String) : String := String.mk (trimChars s.data)

/-- JS `s.split('\n')`, on the character list. -/
def splitNl : List Char → List (List Char)
  | [] => [[]]
  | c :: cs =>
    match splitNl cs with
    | [] => [[]]
    | h :: t => if c = '\n' then [] :: h :: t else (c :: h) :: t

/-- JS `s.split('\n')`. -/
def splitLines (s : String) : List String := (splitNl s.data).map String.mk

/-- JS `s.toLowerCase()`. -/
def jsToLower (s : String) : String := String.mk (s.data.map Char.toLower)

/-- `sub` begins the character list `l`. -/
def startsWithChars : List Char → List Char → Bool
  | [], _ => true
  | _ :: _, [] => false
  | a :: as, b :: bs => a = b && startsWithChars as bs

/-- `sub` occurs contiguously inside `l`. -/
def hasSubChars (sub : List Char) : List Char → Bool
  | [] => sub.isEmpty
  | c :: cs => startsWithChars sub (c :: cs) || hasSubChars sub cs

/-- JS `s.includes(sub)`. -/
def strContains (s sub : String) : Bool := hasSubChars sub.toList s.toList

/-- `isConfigurationError`: errors that must not be retried. -/
def isConfigurationError (e : JSError) : Bool :=
  let errorMessage := jsToLower e.message
  strContains errorMessage "401" || strContains errorMessage "403" ||
  strContains errorMessage "invalid" || strContains errorMessage "unauthorized"

/-- `handleApiError`: map an internal exception to the user-facing message. -/
def handleApiError (e : JSError) : String :=
  if e.name = "AbortError" then "请求超时，请检查网络连接"
  else
    let errorMessage := e.message
    if strContains errorMessage "401" then "API认证失败，请检查访问密钥配置"
    else if strContains errorMessage "403" then "API权限不足，请检查账户权限"
    else if strContains errorMessage "429" then "API调用频率过高，请稍后再试"
    else if strContains errorMessage "500" then "服务器内部错误，请稍后再试"
    else if strContains errorMessage "network" || strContains errorMessage "fetch" then
      "网络连接失败，请检查网络设置"
    else if errorMessage = "" then "语音合成服务暂时不可用"
    else errorMessage

/-- One `fetch` attempt inside `requestWithRetry`'s `try`: a non-ok response
is thrown as `HTTP <status>: <statusText>` and caught by the same handler as
a transport failure. -/
def fetchAttempt (attempts : Nat → Except JSError HttpResponse) (attempt : Nat) :
    Except JSError HttpResponse :=
  match attempts attempt with
  | Except.ok resp =>
    if resp.ok then Except.ok resp
    else Except.error ⟨"Error", "HTTP " ++ toString resp.status ++ ": " ++ resp.statusText⟩
  | Except.error e => Except.error e

/-- `requestWithRetry`, returning the final outcome together with the list
of inter-attempt delays (each of `retryDelay` ms) that elapsed.  `fuel`
only bounds the recursion; every call keeps `retryCount - attempt ≤ fuel`,
so the fuel-exhausted branch is never taken from `requestWithRetry`. -/
def requestWithRetryAux (attempts : Nat → Except JSError HttpResponse) :
    Nat → Nat → Except JSError HttpResponse × List Nat
  | attempt, fuel =>
    match fetchAttempt attempts attempt with
    | Except.ok resp => (Except.ok resp, [])
    | Except.error e =>
      match fuel with
      | 0 => (Except.error e, [])
      | fuel' + 1 =>
        if attempt < retryCount ∧ isConfigurationError e = false then
          let p := requestWithRetryAux attempts (attempt + 1) fuel'
          (p.1, retryDelay :: p.2)
        else (Except.error e, [])

def requestWithRetry (attempts : Nat → Except JSError HttpResponse) (attempt : Nat) :
    Except JSError HttpResponse × List Nat :=
  requestWithRetryAux attempts attempt retryCount

/-- `!!(this.config.appId && this.config.accessKey)`. -/
def validateConfig (cfg : TTSConfig) : Bool :=
  cfg.appId ≠ "" && cfg.accessKey ≠ ""

/-- The audio chunk a fragment contributes: its `data` field when it is a
non-empty string. -/
def chunkOf (lr : LineJson) : Option String :=
  match lr.data with
  | some d => if d.length > 0 then some d else none
  | none => none

/-- `lineResult.code !== 0 && lineResult.code !== 20000000`. -/
def lineCodeBad (c : Option Int) : Bool :=
  c ≠ some 0 && c ≠ some 20000000

/-- Message of the error thrown for a fatal (negative) fragment code. -/
def upstreamErrMsg (lr : LineJson) (c : Int) : String :=
  "API返回错误: " ++ (if lr.message = "" then "未知错误" else lr.message) ++
  " (状态码: " ++ toString c ++ ")"

/-- `${result.code}` where the field may be absent. -/
def codeText : Option Int → String
  | some c => toString c
  | none => "undefined"

/-- `audioDataParts.join('')`. -/
def concatChunks : List String → String
  | [] => ""
  | p :: ps => p ++ concatChunks ps

/-- The per-line loop of `synthesize` over the parse outcome of each line:
collects audio chunks in order and remembers the last parsed fragment.
Any exception inside the loop body — a parse failure or the throw for a
negative code — is rethrown wrapped as a line parse failure. -/
def collectLines : List (Except String LineJson) → Nat → List String →
    Option LineJson → Except String (List String × Option LineJson)
  | [], _, parts, finalR => Except.ok (parts, finalR)
  | Except.error m :: _, i, _, _ =>
    Except.error ("第" ++ toString (i + 1) ++ "行JSON解析失败: " ++ m)
  | Except.ok lr :: rest, i, parts, _ =>
    let fatal : Option String :=
      if lineCodeBad lr.code then
        match lr.code with
        | some c => if c < 0 then some (upstreamErrMsg lr c) else none
        | none => none
      else none
    match fatal with
    | some m => Except.error ("第" ++ toString (i + 1) ++ "行JSON解析失败: " ++ m)
    | none => collectLines rest (i + 1) (parts ++ (chunkOf lr).toList) (some lr)

/-- The single-object fallback taken when no line carried an audio chunk:
parse the whole trimmed body once; its own status/data errors are caught by
the surrounding handler and rethrown wrapped as a JSON format failure. -/
def singleParseFallback (wholeParse : Except String LineJson) : Except String String :=
  match wholeParse with
  | Except.error m => Except.error ("API返回的不是有效的JSON格式: " ++ m)
  | Except.ok r =>
    if lineCodeBad r.code then
      Except.error ("API返回的不是有效的JSON格式: " ++ "API返回错误: " ++
        (if r.message = "" then "未知错误" else r.message) ++
        " (状态码: " ++ codeText r.code ++ ")")
    else
      match r.data with
      | some d =>
        if d ≠ "" then Except.ok d
        else Except.error ("API返回的不是有效的JSON格式: " ++
          "TTS合成失败：API返回的音频数据为空，可能是音色不支持或参数配置问题")
      | none => Except.error ("API返回的不是有效的JSON格式: " ++
          "TTS合成失败：API返回的音频数据为空，可能是音色不支持或参数配置问题")

/-- `responseText.trim().split('\n')` with blank lines dropped and each
kept line trimmed, as consumed by the per-line loop. -/
def linesOf (body : String) : List String :=
  ((splitLines (jsTrim body)).filter (fun l => jsTrim l ≠ "")).map jsTrim

/-- Response-body assembly (`synthesize` lines 1003–1112): reject a blank
body, run the per-line loop, fall back to single-object parsing when no
chunk was collected, re-check the last fragment's status (`result.code`
is also falsy when the field is absent or `0`) and require non-empty
combined audio. -/
def assembleBody (body : String) (parse : String → Except String LineJson) :
    Except String String :=
  if body = "" ∨ jsTrim body = "" then Except.error "API返回空响应"
  else
    match collectLines ((linesOf body).map parse) 0 [] none with
    | Except.error m => Except.error m
    | Except.ok (parts, finalR) =>
      if parts.isEmpty then singleParseFallback (parse (jsTrim body))
      else
        let combined := concatChunks parts
        let rcode : Option Int := match finalR with | some lr => lr.code | none => none
        let rmsg : String := match finalR with | some lr => lr.message | none => ""
        if (match rcode with | some c => c ≠ 0 && c ≠ 20000000 | none => false) then
          Except.error (if rmsg = "" then "语音合成失败" else rmsg)
        else if combined ≠ "" then Except.ok combined
        else Except.error "API返回的音频数据为空"

/-- The transport-and-assembly part of `synthesize` inside its `try`:
issue the retried request, re-check `response.ok` (dead: `requestWithRetry`
already threw non-ok responses), and assemble the body, lifting assembly
failures to thrown `Error`s. -/
def synthesizeInner (attempts : Nat → Except JSError HttpResponse)
    (parse : String → Except String LineJson) : Except JSError String :=
  match requestWithRetry attempts 1 with
  | (Except.error e, _) => Except.error e
  | (Except.ok resp, _) =>
    if resp.ok = false then
      Except.error ⟨"Error", "API请求失败: " ++ toString resp.status ++ " " ++ resp.statusText⟩
    else
      match assembleBody resp.bodyText parse with
      | Except.error m => Except.error ⟨"Error", m⟩
      | Except.ok audio => Except.ok audio

/-- `synthesize`: config check, text validation, then the guarded transport
and assembly; every exception of the `try` block is converted by
`handleApiError` into a failure value.  `now` stands for `Date.now()`. -/
def synthesize (cfg : TTSConfig) (req : TTSRequest)
    (attempts : Nat → Except JSError HttpResponse)
    (parse : String → Except String LineJson) (now : Nat) : TTSResponse :=
  if validateConfig cfg = false then
    ⟨false, none, some "TTS配置不完整，请检查环境变量中的APP_ID和ACCESS_KEY"⟩
  else if req.text = "" ∨ jsTrim req.text = "" then
    ⟨false, none, some "文本内容不能为空"⟩
  else if req.text.length > 1000 then
    ⟨false, none, some "文本长度不能超过1000个字符"⟩
  else
    match synthesizeInner attempts parse with
    | Except.ok audio => ⟨true, some ⟨audio, now⟩, none⟩
    | Except.error e => ⟨false, none, some (handleApiError e)⟩

/-- Last element of a list, defaulting to an earlier value: the value of
`finalResult` after the per-line loop. -/
def lastOpt : Option LineJson → List LineJson → Option LineJson
  | fr, [] => fr
  | _, f :: rest => lastOpt (some f) rest

/-!
Concrete oracles for closed instances: a lookup table standing for
`JSON.parse` on the finitely many lines of a fixed response body.
-/

def tableParse (tbl : List (String × LineJson)) (line : String) : Except String LineJson :=
  match tbl.find? (fun p => p.1 = line) with
  | some p => Except.ok p.2
  | none => Except.error "Unexpected token"

def cfgW : TTSConfig := ⟨"app", "key", "url", "rid"⟩

/-- `{"code":0,"message":"ok","data":"AA"}` -/
def lineAA : String := "\x7b\"code\":0,\"message\":\"ok\",\"data\":\"AA\"\x7d"

/-- `{"code":0,"message":"ok","data":"BB"}` -/
def lineBB : String := "\x7b\"code\":0,\"message\":\"ok\",\"data\":\"BB\"\x7d"

/-- `{"code":0,"message":"done","data":""}` -/
def lineDone : String := "\x7b\"code\":0,\"message\":\"done\",\"data\":\"\"\x7d"

/-- The spec's three-line example body. -/
def bodyAABB : String := lineAA ++ "\n" ++ lineBB ++ "\n" ++ lineDone

def fragsAABB : List LineJson :=
  [⟨some 0, "ok", some "AA"⟩, ⟨some 0, "ok", some "BB"⟩, ⟨some 0, "done", some ""⟩]

def parseAABB : String → Except String LineJson :=
  tableParse [(lineAA, ⟨some 0, "ok", some "AA"⟩), (lineBB, ⟨some 0, "ok", some "BB"⟩),
              (lineDone, ⟨some 0, "done", some ""⟩)]

/-- `{"code":55,"message":"hint","data":""}` — a non-negative, non-success
status code in final position. -/
def lineHint : String := "\x7b\"code\":55,\"message\":\"hint\",\"data\":\"\"\x7d"

def bodyHint : String := lineAA ++ "\n" ++ lineHint

def parseHint : String → Except String LineJson :=
  tableParse [(lineAA, ⟨some 0, "ok", some "AA"⟩), (lineHint, ⟨some 55, "hint", some ""⟩)]

/-- `{"code":0,"message":"","data":"QQ"}` -/
def lineQQ : String := "\x7b\"code\":0,\"message\":\"\",\"data\":\"QQ\"\x7d"

/-- `{"code":7,"message":"服务提示","data":""}` -/
def lineInfo : String := "\x7b\"code\":7,\"message\":\"服务提示\",\"data\":\"\"\x7d"

def bodyInfo : String := lineQQ ++ "\n" ++ lineInfo

def parseInfo : String → Except String LineJson :=
  tableParse [(lineQQ, ⟨some 0, "", some "QQ"⟩), (lineInfo, ⟨some 7, "服务提示", some ""⟩)]

end TTS

/-! ## Arbiter theorems -/

namespace Arbiter

theorem lookupSrc_mem {tok : Nat} {src : Source} :
    ∀ {l : List (Nat × Source)}, lookupSrc tok l = some src → (tok, src) ∈ l := by
  intro l
  induction l with
  | nil => intro h; simp [lookupSrc] at h
  | cons p rest ih =>
    obtain ⟨t, s⟩ := p
    intro h
    simp only [lookupSrc] at h
    by_cases ht : t = tok
    · subst ht
      simp only [if_pos rfl] at h
      cases h
      exact List.mem_cons_self _ _
    · rw [if_neg ht] at h
      exact List.mem_cons_of_mem _ (ih h)

theorem eq_singleton_of_mem_of_length_le_one {α : Type} {x : α} {l : List α}
    (hm : x ∈ l) (hl : l.length ≤ 1) : l = [x] := by
  cases l with
  | nil => simp at hm
  | cons a t =>
    cases t with
    | nil => simp at hm; rw [hm]
    | cons b u => simp at hl

theorem inv_processQueue_of_reset (s : AState) (hcur : s.current = none)
    (hrun : s.running = []) (hproc : s.isProcessing = false) : Inv (processQueue s) := by
  unfold processQueue
  rw [hproc, hcur]
  simp only [Bool.false_or, Option.isSome_none, Bool.or_false]
  cases hq : s.queue with
  | nil => simp [Inv, hcur, hrun, hproc, hq]
  | cons p rest =>
    obtain ⟨tok, id⟩ := p
    simp only [hq, List.isEmpty_cons, if_false]
    refine ⟨?_, ?_, ?_⟩
    · simp [hrun]
    · simp [hrun]
    · simp [hrun]

theorem inv_loopContinue_of_reset (s : AState) (hcur : s.current = none)
    (hrun : s.running = []) (hproc : s.isProcessing = true) : Inv (loopContinue s) := by
  unfold loopContinue
  rw [hcur]
  simp only [Option.isSome_none, Bool.or_false]
  cases hq : s.queue with
  | nil => simp [Inv, hcur, hrun]
  | cons p rest =>
    obtain ⟨tok, id⟩ := p
    simp only [hq, List.isEmpty_cons, if_false]
    refine ⟨?_, ?_, ?_⟩
    · simp [hrun]
    · simp [hrun]
    · simp [hrun, hproc]

theorem inv_requestPlay (s : AState) (id : String) (hinv : Inv s)
    (hne : s.current ≠ some id) : Inv (requestPlay id s) := by
  obtain ⟨h1, h2, h3⟩ := hinv
  cases hc : s.current with
  | none =>
    have hrun : s.running = [] := h2.mp hc
    have hp : s.isProcessing = false := by
      cases hp : s.isProcessing
      · rfl
      · obtain ⟨t, ht⟩ := h3.mp hp
        rw [hrun] at ht
        simp at ht
    unfold requestPlay
    rw [hc]
    refine ⟨?_, ?_, ?_⟩
    · simp [hrun]
    · simp [hrun]
    · simp [hrun, hp]
  | some cur =>
    have hcne : cur ≠ id := fun he => hne (by rw [hc, he])
    rw [hc] at h2
    unfold requestPlay
    rw [hc]
    simp only [if_neg hcne]
    exact ⟨h1, by simpa using h2, by simpa using h3⟩

theorem inv_onPlayEnded (s : AState) (id : String) (hinv : Inv s)
    (hne : s.current ≠ some id) : Inv (onPlayEnded id s) := by
  unfold onPlayEnded
  rw [if_neg hne]
  exact hinv

theorem inv_finishAction (s : AState) (tok : Nat) (outcome : Option String)
    (hinv : Inv s) : Inv (finishAction tok outcome s) := by
  obtain ⟨h1, h2, h3⟩ := hinv
  cases hl : lookupSrc tok s.running with
  | none =>
    unfold finishAction
    rw [hl]
    exact ⟨h1, h2, h3⟩
  | some src =>
    have hmem := lookupSrc_mem hl
    have hsing : s.running = [(tok, src)] := eq_singleton_of_mem_of_length_le_one hmem h1
    have hrm : removeTok tok s.running = [] := by rw [hsing]; simp [removeTok]
    cases src with
    | imm =>
      have hp : s.isProcessing = false := by
        cases hp : s.isProcessing
        · rfl
        · obtain ⟨t, ht⟩ := h3.mp hp
          rw [hsing] at ht
          simp at ht
      unfold finishAction
      rw [hl]
      exact inv_processQueue_of_reset _ rfl (by simpa using hrm) (by simpa using hp)
    | queued =>
      have hp : s.isProcessing = true := h3.mpr ⟨tok, by rw [hsing]; simp⟩
      unfold finishAction
      rw [hl]
      exact inv_loopContinue_of_reset _ rfl (by simpa using hrm) (by simpa using hp)

theorem inv_clearQueue (s : AState) (hinv : Inv s) : Inv (clearQueue s) := by
  obtain ⟨h1, h2, h3⟩ := hinv
  exact ⟨h1, by simpa using h2, by simpa using h3⟩

theorem safeReach_inv (s : AState) (h : SafeReach s) : Inv s := by
  induction h with
  | init => exact ⟨by simp [initState], by simp [initState], by simp [initState]⟩
  | req s id _ hne ih => exact inv_requestPlay s id ih hne
  | ended s id _ hne ih => exact inv_onPlayEnded s id ih hne
  | finish s tok outcome _ ih => exact inv_finishAction s tok outcome ih
  | clear s _ ih => exact inv_clearQueue s ih

end Arbiter

namespace Arbiter

theorem processQueue_settled (s : AState) : (processQueue s).settled = s.settled := by
  unfold processQueue
  split
  · rfl
  · split <;> rfl

theorem loopContinue_settled (s : AState) : (loopContinue s).settled = s.settled := by
  unfold loopContinue
  split
  · rfl
  · split <;> rfl

/-- C1 (counterexample): the claim "no two registered playback actions ever
run concurrently, for every interleaving of `requestPlay`, `stopCurrent` and
`onPlayEnded`" is false.  After `requestPlay("a", f1)` the action `f1` is
running; a second `requestPlay("a", f2)` takes the same-identity branch,
which only signals a stop and clears `currentPlayingId` before starting
`f2` — `f1`'s promise is still pending, so two registered actions are
running at once. -/
theorem retrigger_runs_two_actions :
    (run initState [Label.req "a", Label.req "a"]).running.length = 2 := by decide

/-- C1 (amended): the `currentPlayingId` field records at most one identity
at any instant, and in every interleaving of `requestPlay`, `onPlayEnded`,
`clearQueue` and action completions in which `stopCurrent` is never called
and no `requestPlay`/`onPlayEnded` call targets the identity currently
recorded as playing, at most one registered action is ever running, i.e.
no two actions run concurrently. -/
theorem safe_traces_single_flight (s : AState) (h : SafeReach s) :
    (∀ a b : String, s.current = some a → s.current = some b → a = b) ∧
    s.running.length ≤ 1 :=
  ⟨fun _ _ ha hb => Option.some.inj (ha ▸ hb), (safeReach_inv s h).1⟩

/-- Witness for C1's amended theorem on a concrete safe trace:
request "a", its action completes, then request "b". -/
theorem safe_traces_single_flight_witness :
    (stepFn (Label.req "b") (stepFn (Label.finish 0 none)
      (stepFn (Label.req "a") initState))).running.length ≤ 1 :=
  (safe_traces_single_flight _
    (SafeReach.req _ "b"
      (SafeReach.finish _ 0 none
        (SafeReach.req _ "a" SafeReach.init (by decide)))
      (by decide))).2

/-- C8 (confirmed): when `requestPlay` is called with the identity that is
currently playing, the call emits exactly one stop notification carrying
that identity before the new action's start event, and is then handled
exactly as a fresh immediate play on the stopped state. -/
theorem retrigger_emits_one_stop_then_fresh_play (s : AState) (id : String)
    (h : s.current = some id) :
    requestPlay id s = requestPlay id (stopCurrent s) ∧
    (requestPlay id s).events = s.events ++ [Ev.stop id, Ev.started s.nextTok id] := by
  constructor
  · show requestPlay id s = requestPlay id (stopCurrent s)
    unfold requestPlay stopCurrent
    rw [h]
    simp
  · unfold requestPlay stopCurrent
    rw [h]
    simp

/-- Witness for C8 in the reachable state where "a" is playing. -/
theorem retrigger_emits_one_stop_then_fresh_play_witness :
    (requestPlay "a" (run initState [Label.req "a"])).events =
      (run initState [Label.req "a"]).events ++
        [Ev.stop "a", Ev.started (run initState [Label.req "a"]).nextTok "a"] :=
  (retrigger_emits_one_stop_then_fresh_play (run initState [Label.req "a"]) "a" (by decide)).2

/-- C4 (confirmed): error-propagation asymmetry of `requestPlay`.  If the
finishing action was started on the immediate path (no current player, or
same-identity retrigger) and it rejected, the caller's promise is rejected
with that error; if it was started by queue draining, the caller's promise
resolves regardless of the action's outcome (the queued wrapper swallows
the error). -/
theorem queued_errors_swallowed_imm_errors_propagate (s : AState) (tok : Nat) (e : String) :
    (lookupSrc tok s.running = some Source.imm →
      (finishAction tok (some e) s).settled = s.settled ++ [(tok, Settle.rejected e)]) ∧
    (lookupSrc tok s.running = some Source.queued → ∀ outcome : Option String,
      (finishAction tok outcome s).settled = s.settled ++ [(tok, Settle.resolved)]) := by
  constructor
  · intro h
    unfold finishAction
    rw [h]
    simp [processQueue_settled]
  · intro h outcome
    unfold finishAction
    rw [h]
    simp [loopContinue_settled]

/-- Witness for C4: an immediate action "a" rejecting with "boom" rejects
its caller; a queued action started by draining ("b", enqueued while "a"
played, started when "a" finished) rejecting with "boom" still resolves its
caller. -/
theorem queued_errors_swallowed_imm_errors_propagate_witness :
    ((finishAction 0 (some "boom") (run initState [Label.req "a"])).settled =
      (run initState [Label.req "a"]).settled ++ [(0, Settle.rejected "boom")]) ∧
    ((finishAction 1 (some "boom")
        (run initState [Label.req "a", Label.req "b", Label.finish 0 none])).settled =
      (run initState [Label.req "a", Label.req "b", Label.finish 0 none]).settled ++
        [(1, Settle.resolved)]) :=
  ⟨(queued_errors_swallowed_imm_errors_propagate (run initState [Label.req "a"]) 0 "boom").1
      (by decide),
   (queued_errors_swallowed_imm_errors_propagate
      (run initState [Label.req "a", Label.req "b", Label.finish 0 none]) 1 "boom").2
      (by decide) (some "boom")⟩

/-- C10 (confirmed): `clearQueue` empties only the pending queue: afterwards
`getQueueLength` is `0`, while the currently playing identity is unchanged
and no event (in particular no stop notification) is emitted. -/
theorem clearQueue_only_empties_queue (s : AState) :
    getQueueLength (clearQueue s) = 0 ∧ (clearQueue s).current = s.current ∧
    (clearQueue s).events = s.events ∧ (clearQueue s).running = s.running ∧
    (clearQueue s).settled = s.settled :=
  ⟨rfl, rfl, rfl, rfl, rfl⟩

end Arbiter

/-! ## Synthesis-client theorems -/

namespace TTS

/-- C3 (confirmed): classification of transport failures in
`requestWithRetry` starting at attempt 1.  A first-attempt failure whose
message is classified as a configuration/authorization error (contains
"401", "403", "invalid" or "unauthorized", case-insensitively) is rethrown
at once with no retry delay; two transient failures followed by a success
yield that success after exactly two inter-attempt delays of
`retryDelay = 1000` ms. -/
theorem requestWithRetry_classified (attempts : Nat → Except JSError HttpResponse)
    (e1 e2 : JSError) (resp : HttpResponse) :
    (fetchAttempt attempts 1 = Except.error e1 → isConfigurationError e1 = true →
      requestWithRetry attempts 1 = (Except.error e1, [])) ∧
    (fetchAttempt attempts 1 = Except.error e1 → isConfigurationError e1 = false →
     fetchAttempt attempts 2 = Except.error e2 → isConfigurationError e2 = false →
     fetchAttempt attempts 3 = Except.ok resp →
      requestWithRetry attempts 1 = (Except.ok resp, [retryDelay, retryDelay]) ∧
      retryDelay = 1000) := by
  constructor
  · intro h1 hc1
    unfold requestWithRetry requestWithRetryAux
    rw [h1]
    simp [hc1, retryCount]
  · intro h1 hc1 h2 hc2 h3
    refine ⟨?_, rfl⟩
    unfold requestWithRetry requestWithRetryAux
    rw [h1]
    simp only [hc1, retryCount]
    unfold requestWithRetryAux
    rw [h2]
    simp only [hc2, retryCount]
    unfold requestWithRetryAux
    rw [h3]
    simp [retryCount]

/-- Witness for C3: a 401 response fails with no delay; a 500 response on
the first two attempts and a success on the third yield the success after
two 1000 ms delays. -/
theorem requestWithRetry_classified_witness :
    (requestWithRetry (fun _ => Except.ok ⟨false, 401, "Unauthorized", ""⟩) 1 =
      (Except.error ⟨"Error", "HTTP 401: Unauthorized"⟩, [])) ∧
    (requestWithRetry
        (fun n => if n < 3 then Except.ok ⟨false, 500, "Internal Server Error", ""⟩
                  else Except.ok ⟨true, 200, "OK", "X"⟩) 1 =
      (Except.ok ⟨true, 200, "OK", "X"⟩, [retryDelay, retryDelay]) ∧ retryDelay = 1000) :=
  ⟨(requestWithRetry_classified (fun _ => Except.ok ⟨false, 401, "Unauthorized", ""⟩)
      ⟨"Error", "HTTP 401: Unauthorized"⟩ ⟨"Error", "HTTP 401: Unauthorized"⟩
      ⟨false, 401, "Unauthorized", ""⟩).1 (by decide) (by decide),
   (requestWithRetry_classified
      (fun n => if n < 3 then Except.ok ⟨false, 500, "Internal Server Error", ""⟩
                else Except.ok ⟨true, 200, "OK", "X"⟩)
      ⟨"Error", "HTTP 500: Internal Server Error"⟩
      ⟨"Error", "HTTP 500: Internal Server Error"⟩
      ⟨true, 200, "OK", "X"⟩).2 (by decide) (by decide) (by decide) (by decide) (by decide)⟩

/-- C9 (confirmed): the configuration check precedes text validation in
`synthesize`: with a blank app id or access key the result is the
configuration failure for every request — in particular also when the text
is blank or longer than 1000 characters — and for every transport and
parse oracle. -/
theorem config_check_precedes_text_validation (cfg : TTSConfig) (req : TTSRequest)
    (attempts : Nat → Except JSError HttpResponse)
    (parse : String → Except String LineJson) (now : Nat)
    (h : cfg.appId = "" ∨ cfg.accessKey = "") :
    synthesize cfg req attempts parse now =
      ⟨false, none, some "TTS配置不完整，请检查环境变量中的APP_ID和ACCESS_KEY"⟩ := by
  have hv : validateConfig cfg = false := by
    unfold validateConfig
    cases h with
    | inl h => simp [h]
    | inr h => simp [h]
  unfold synthesize
  rw [hv]
  simp

/-- Witness for C9: missing app id and simultaneously blank text still
yields the configuration failure, not the empty-text failure. -/
theorem config_check_precedes_text_validation_witness :
    synthesize ⟨"", "key", "url", "rid"⟩ ⟨"", "spk"⟩
      (fun _ => Except.error ⟨"TypeError", "fetch failed"⟩) (fun _ => Except.error "x") 0 =
      ⟨false, none, some "TTS配置不完整，请检查环境变量中的APP_ID和ACCESS_KEY"⟩ :=
  config_check_precedes_text_validation ⟨"", "key", "url", "rid"⟩ ⟨"", "spk"⟩
    (fun _ => Except.error ⟨"TypeError", "fetch failed"⟩) (fun _ => Except.error "x") 0
    (Or.inl rfl)

/-- C6 (confirmed): with a complete configuration, `synthesize` validates
its text before any transport activity, for every transport and parse
oracle (so no network request and no retry can be involved): blank text
yields the empty-text failure, and non-blank text longer than 1000
characters yields the too-long failure. -/
theorem synthesize_validates_text (cfg : TTSConfig) (req : TTSRequest)
    (attempts : Nat → Except JSError HttpResponse)
    (parse : String → Except String LineJson) (now : Nat)
    (hcfg : validateConfig cfg = true) :
    (jsTrim req.text = "" →
      synthesize cfg req attempts parse now = ⟨false, none, some "文本内容不能为空"⟩) ∧
    (jsTrim req.text ≠ "" → req.text.length > 1000 →
      synthesize cfg req attempts parse now = ⟨false, none, some "文本长度不能超过1000个字符"⟩) := by
  constructor
  · intro ht
    unfold synthesize
    rw [hcfg]
    simp [ht]
  · intro ht hlen
    have hne : req.text ≠ "" := by
      intro he
      exact ht (by rw [he]; rfl)
    unfold synthesize
    rw [hcfg]
    simp [ht, hne, hlen]

set_option maxRecDepth 40000 in
/-- Witness for C6: whitespace-only text fails as empty; 1001 copies of
'a' fail as too long — under oracles that would fail loudly if consulted. -/
theorem synthesize_validates_text_witness :
    (synthesize cfgW ⟨"   ", "spk"⟩ (fun _ => Except.error ⟨"x", "y"⟩)
        (fun _ => Except.error "z") 0 = ⟨false, none, some "文本内容不能为空"⟩) ∧
    (synthesize cfgW ⟨String.mk (List.replicate 1001 'a'), "spk"⟩
        (fun _ => Except.error ⟨"x", "y"⟩) (fun _ => Except.error "z") 0 =
      ⟨false, none, some "文本长度不能超过1000个字符"⟩) :=
  ⟨(synthesize_validates_text cfgW ⟨"   ", "spk"⟩ (fun _ => Except.error ⟨"x", "y"⟩)
      (fun _ => Except.error "z") 0 (by decide)).1 (by decide),
   (synthesize_validates_text cfgW ⟨String.mk (List.replicate 1001 'a'), "spk"⟩
      (fun _ => Except.error ⟨"x", "y"⟩) (fun _ => Except.error "z") 0 (by decide)).2
      (by decide) (by decide)⟩

end TTS

namespace TTS

theorem handleApiError_ne_empty (e : JSError) : handleApiError e ≠ "" := by
  unfold handleApiError
  split
  · decide
  · dsimp only
    split
    · decide
    · split
      · decide
      · split
        · decide
        · split
          · decide
          · split
            · decide
            · split
              · decide
              · assumption

/-- C7 (confirmed): `synthesize` is total at its public boundary: for every
request, configuration, transport outcome and parse outcome it returns a
tagged value — either a success carrying audio data and no error, or a
failure carrying no data and a non-empty error message (every internal
exception is converted by `handleApiError`); it never throws. -/
theorem synthesize_total (cfg : TTSConfig) (req : TTSRequest)
    (attempts : Nat → Except JSError HttpResponse)
    (parse : String → Except String LineJson) (now : Nat) :
    ((synthesize cfg req attempts parse now).success = true ∧
     ((synthesize cfg req attempts parse now).data).isSome = true ∧
     (synthesize cfg req attempts parse now).error = none) ∨
    ((synthesize cfg req attempts parse now).success = false ∧
     (synthesize cfg req attempts parse now).data = none ∧
     ∃ m, (synthesize cfg req attempts parse now).error = some m ∧ m ≠ "") := by
  unfold synthesize
  split
  · right
    exact ⟨rfl, rfl, _, rfl, by decide⟩
  · split
    · right
      exact ⟨rfl, rfl, _, rfl, by decide⟩
    · split
      · right
        exact ⟨rfl, rfl, _, rfl, by decide⟩
      · cases h : synthesizeInner attempts parse with
        | ok audio => left; exact ⟨rfl, rfl, rfl⟩
        | error e => right; exact ⟨rfl, rfl, handleApiError e, rfl, handleApiError_ne_empty e⟩

end TTS

namespace TTS

theorem str_eq_empty_of_data {s : String} (h : s.data = []) : s = "" := by
  cases s with
  | mk data =>
    simp at h
    subst h
    rfl

theorem concatChunks_ne_empty (l : List String) (x : String) (hx : x ∈ l)
    (hne : x ≠ "") : concatChunks l ≠ "" := by
  induction l with
  | nil => simp at hx
  | cons a t ih =>
    intro he
    have hdata : a.data ++ (concatChunks t).data = [] := congrArg String.data he
    have ha := List.append_eq_nil.mp hdata
    rcases List.mem_cons.mp hx with hx1 | hx2
    · rw [hx1] at hne
      exact hne (str_eq_empty_of_data ha.1)
    · exact ih hx2 (str_eq_empty_of_data ha.2)

theorem collectLines_append_ok (pre : List LineJson)
    (h : ∀ f ∈ pre, ∀ c : Int, f.code = some c → 0 ≤ c) :
    ∀ (tail : List (Except String LineJson)) (i : Nat) (parts : List String)
      (fr : Option LineJson),
    collectLines (pre.map Except.ok ++ tail) i parts fr =
      collectLines tail (i + pre.length) (parts ++ pre.filterMap chunkOf) (lastOpt fr pre) := by
  induction pre with
  | nil =>
    intro tail i parts fr
    simp [lastOpt]
  | cons f rest ih =>
    intro tail i parts fr
    have hf := h f (List.mem_cons_self f rest)
    have hrest : ∀ g ∈ rest, ∀ c : Int, g.code = some c → 0 ≤ c :=
      fun g hg => h g (List.mem_cons_of_mem f hg)
    simp only [List.map_cons, List.cons_append, collectLines]
    have hfatal : (if lineCodeBad f.code = true then
        match f.code with
        | some c => if c < 0 then some (upstreamErrMsg f c) else none
        | none => none
      else none) = none := by
      cases hc : f.code with
      | none => split <;> rfl
      | some c =>
        have hc0 := hf c hc
        split
        · simp [Int.not_lt.mpr hc0]
        · rfl
    rw [hfatal]
    dsimp only
    simp only [List.append_eq]
    rw [ih hrest tail (i + 1) (parts ++ (chunkOf f).toList) (some f)]
    have hlen : i + 1 + rest.length = i + (f :: rest).length := by
      simp [List.length_cons]
      omega
    have hparts : (parts ++ (chunkOf f).toList) ++ rest.filterMap chunkOf =
        parts ++ (f :: rest).filterMap chunkOf := by
      rw [List.filterMap_cons]
      cases chunkOf f <;> simp
    have hlast : lastOpt (some f) rest = lastOpt fr (f :: rest) := rfl
    rw [hlen, hparts, hlast]

theorem collectLines_all_ok (frags : List LineJson)
    (h : ∀ f ∈ frags, ∀ c : Int, f.code = some c → 0 ≤ c) :
    collectLines (frags.map Except.ok) 0 [] none =
      Except.ok (frags.filterMap chunkOf, lastOpt none frags) := by
  have hx := collectLines_append_ok frags h [] 0 [] none
  rw [List.append_nil] at hx
  rw [hx]
  simp [collectLines]

theorem assembleBody_concat (body : String) (parse : String → Except String LineJson)
    (frags : List LineJson)
    (hbody : jsTrim body ≠ "")
    (hparse : (linesOf body).map parse = frags.map Except.ok)
    (hnonneg : ∀ f ∈ frags, ∀ c : Int, f.code = some c → 0 ≤ c)
    (hlast : ∃ f, lastOpt none frags = some f ∧ (f.code = some 0 ∨ f.code = some 20000000))
    (hchunk : ∃ f, f ∈ frags ∧ (chunkOf f).isSome = true) :
    assembleBody body parse = Except.ok (concatChunks (frags.filterMap chunkOf)) := by
  obtain ⟨flast, hfl, hflc⟩ := hlast
  obtain ⟨fc, hfc, hfcs⟩ := hchunk
  obtain ⟨d, hd⟩ := Option.isSome_iff_exists.mp hfcs
  have hbe : ¬(body = "" ∨ jsTrim body = "") := by
    rintro (h | h)
    · exact hbody (by rw [h]; rfl)
    · exact hbody h
  have hdm : d ∈ frags.filterMap chunkOf := List.mem_filterMap.mpr ⟨fc, hfc, hd⟩
  have hnil : frags.filterMap chunkOf ≠ [] := by
    intro he
    rw [he] at hdm
    simp at hdm
  have hie : (frags.filterMap chunkOf).isEmpty = false := by
    cases hfm : frags.filterMap chunkOf with
    | nil => exact absurd hfm hnil
    | cons a t => rfl
  have hdne : d ≠ "" := by
    unfold chunkOf at hd
    cases hdt : fc.data with
    | none =>
      rw [hdt] at hd
      simp at hd
    | some d' =>
      rw [hdt] at hd
      dsimp only at hd
      by_cases hl : d'.length > 0
      · rw [if_pos hl] at hd
        cases hd
        intro he
        rw [he] at hl
        simp at hl
      · rw [if_neg hl] at hd
        simp at hd
  have hcmb : concatChunks (frags.filterMap chunkOf) ≠ "" :=
    concatChunks_ne_empty _ d hdm hdne
  unfold assembleBody
  rw [if_neg hbe, hparse, collectLines_all_ok frags hnonneg]
  rcases hflc with h0 | h0 <;> simp [hie, hfl, h0, hcmb]

end TTS

namespace TTS

/-- C2 (counterexample): the claim "for every body of parsing fragments
with non-negative status codes, the result's audio is the concatenation of
the non-empty chunks" is false: with fragments
`{"code":0,"data":"AA"}` and `{"code":55,"message":"hint","data":""}` every
line parses and every code is non-negative, yet the final status re-check
(`result.code && result.code !== 0 && ...`) sees the last fragment's code
`55` and fails the whole call with its message — no success, no audio. -/
theorem synthesize_positive_last_code_fails :
    synthesize cfgW ⟨"你好", "spk"⟩ (fun _ => Except.ok ⟨true, 200, "OK", bodyHint⟩)
      parseHint 0 = ⟨false, none, some "hint"⟩ := by decide

/-- C2 (amended): for every response body of newline-delimited fragments
that each parse with non-negative status codes, of which at least one
carries a non-empty audio chunk and whose last fragment carries a success
code (0 or 20000000), `synthesize` succeeds (given valid configuration,
valid text and an ok transport response) and its audio is the plain
concatenation of every fragment's non-empty chunk in arrival order. -/
theorem synthesize_concat_chunks (cfg : TTSConfig) (req : TTSRequest)
    (attempts : Nat → Except JSError HttpResponse)
    (parse : String → Except String LineJson) (now : Nat)
    (resp : HttpResponse) (frags : List LineJson)
    (hcfg : validateConfig cfg = true)
    (htext : jsTrim req.text ≠ "")
    (hlen : req.text.length ≤ 1000)
    (hresp : attempts 1 = Except.ok resp)
    (hok : resp.ok = true)
    (hbody : jsTrim resp.bodyText ≠ "")
    (hparse : (linesOf resp.bodyText).map parse = frags.map Except.ok)
    (hnonneg : ∀ f ∈ frags, ∀ c : Int, f.code = some c → 0 ≤ c)
    (hlast : ∃ f, lastOpt none frags = some f ∧
      (f.code = some 0 ∨ f.code = some 20000000))
    (hchunk : ∃ f, f ∈ frags ∧ (chunkOf f).isSome = true) :
    synthesize cfg req attempts parse now =
      ⟨true, some ⟨concatChunks (frags.filterMap chunkOf), now⟩, none⟩ := by
  have hne : req.text ≠ "" := fun he => htext (by rw [he]; rfl)
  have hasm := assembleBody_concat resp.bodyText parse frags hbody hparse hnonneg hlast hchunk
  have hinner : synthesizeInner attempts parse =
      Except.ok (concatChunks (frags.filterMap chunkOf)) := by
    unfold synthesizeInner requestWithRetry requestWithRetryAux fetchAttempt
    simp [hresp, hok, hasm]
  unfold synthesize
  rw [hcfg, hinner]
  simp [hne, htext, Nat.not_lt.mpr hlen]

/-- Witness for C2's amended theorem: the spec's three-line example body
assembles to `Success` with audio "AABB". -/
theorem synthesize_concat_chunks_witness :
    synthesize cfgW ⟨"你好", "spk"⟩ (fun _ => Except.ok ⟨true, 200, "OK", bodyAABB⟩)
      parseAABB 0 = ⟨true, some ⟨"AABB", 0⟩, none⟩ :=
  (synthesize_concat_chunks cfgW ⟨"你好", "spk"⟩
    (fun _ => Except.ok ⟨true, 200, "OK", bodyAABB⟩) parseAABB 0
    ⟨true, 200, "OK", bodyAABB⟩ fragsAABB
    (by decide) (by decide) (by decide) rfl rfl (by decide) (by decide)
    (by
      intro f hf c hc
      simp [fragsAABB] at hf
      rcases hf with h | h | h <;> (subst h; cases hc; decide))
    ⟨⟨some 0, "done", some ""⟩, by decide, Or.inl rfl⟩
    ⟨⟨some 0, "ok", some "AA"⟩, by decide, by decide⟩).trans (by decide)

/-- C5 (counterexample): the claim "every fragment with a non-negative
non-success code is tolerated and never causes the call to fail" is false:
with fragments `{"code":0,"data":"QQ"}` and
`{"code":7,"message":"服务提示","data":""}`, the per-line loop tolerates
code 7, but because that fragment is last, the final status re-check fails
the whole assembly with its message. -/
theorem nonneg_code_in_last_fragment_fails :
    assembleBody bodyInfo parseInfo = Except.error "服务提示" := by decide

/-- C5 (amended): during fragment processing, a parsed fragment whose
status code is negative aborts the loop at once with an error carrying that
code and message (wrapped by the line handler as a line parse failure),
while fragments with non-negative non-success codes never abort the loop —
all-non-negative fragment lists always complete it, collecting every
non-empty chunk; only the post-assembly re-check of the *last* fragment's
code can still fail the call. -/
theorem negative_code_fatal_nonneg_codes_tolerated (pre : List LineJson)
    (f : LineJson) (tail : List (Except String LineJson)) (c : Int)
    (frags : List LineJson) :
    ((∀ g ∈ pre, ∀ c' : Int, g.code = some c' → 0 ≤ c') →
     f.code = some c → c < 0 →
      collectLines (pre.map Except.ok ++ (Except.ok f :: tail)) 0 [] none =
        Except.error ("第" ++ toString (pre.length + 1) ++ "行JSON解析失败: " ++
          upstreamErrMsg f c)) ∧
    ((∀ g ∈ frags, ∀ c' : Int, g.code = some c' → 0 ≤ c') →
      collectLines (frags.map Except.ok) 0 [] none =
        Except.ok (frags.filterMap chunkOf, lastOpt none frags)) := by
  constructor
  · intro hpre hfc hneg
    rw [collectLines_append_ok pre hpre (Except.ok f :: tail) 0 [] none]
    simp only [Nat.zero_add, List.nil_append, collectLines]
    have hbad : lineCodeBad f.code = true := by
      rw [hfc]
      unfold lineCodeBad
      simp only [ne_eq, Option.some.injEq, Bool.and_eq_true, decide_eq_true_eq]
      constructor
      · omega
      · omega
    rw [hbad, hfc]
    simp [hneg]
  · intro h
    exact collectLines_all_ok frags h

/-- Witness for C5: a negative code `-5` on the second line aborts with the
wrapped upstream error; the all-non-negative list `fragsAABB` completes the
loop collecting "AA" and "BB". -/
theorem negative_code_fatal_nonneg_codes_tolerated_witness :
    (collectLines [Except.ok ⟨some 0, "", some "XX"⟩, Except.ok ⟨some (-5), "boom", none⟩]
        0 [] none =
      Except.error "第2行JSON解析失败: API返回错误: boom (状态码: -5)") ∧
    (collectLines (fragsAABB.map Except.ok) 0 [] none =
      Except.ok (["AA", "BB"], some ⟨some 0, "done", some ""⟩)) :=
  ⟨((negative_code_fatal_nonneg_codes_tolerated [⟨some 0, "", some "XX"⟩]
      ⟨some (-5), "boom", none⟩ [] (-5) []).1
      (by intro g hg c' hc'
          simp at hg
          subst hg
          cases hc'
          decide)
      rfl (by decide)).trans (by decide),
   ((negative_code_fatal_nonneg_codes_tolerated [] ⟨some 0, "", none⟩ [] 0 fragsAABB).2
      (by intro f hf c hc
          simp [fragsAABB] at hf
          rcases hf with h | h | h <;> (subst h; cases hc; decide))).trans (by decide)⟩

end TTS
